import Mathlib

/-!
Verification development for the KusokMedi video download bot
(src/db.py, src/queue_worker.py, src/bot.py, src/utils.py).

The persistent store (SQLite) is embedded shallowly: the `downloads` table
is a `List DownloadRow`, the `users` table a lookup function from user id to
the stored `priority_until` column, and each Python / SQL operation becomes a
pure Lean function on those values.  Timestamps stored by SQLite
(`CURRENT_TIMESTAMP`, `completed_at`) are modelled as naturals; the
`priority_until` column, which the program compares AS A STRING against
SQLite's `datetime('now')`, is modelled as the stored string, with SQLite's
BINARY collation embedded as byte-wise comparison on the characters.
-/

/-- Job lifecycle status values written by the program (db.py `status` column:
the code writes exactly the strings pending / downloading / converting /
sending / completed / failed, of which `converting` is in fact never
written by any call site). -/
inductive Status where
  | pending
  | downloading
  | converting
  | sending
  | completed
  | failed
deriving DecidableEq

/-- One row of the `downloads` table (db.py lines 42-60), fields in column
order.  `speed_mbps` is a REAL column, modelled by an optional rational. -/
structure DownloadRow where
  download_id : Nat
  user_id : Nat
  video_url : String
  video_title : Option String
  file_path : Option String
  file_size_bytes : Option Nat
  format : Option String
  status : Status
  progress : Nat
  speed_mbps : Option Rat
  eta_seconds : Option Nat
  created_at : Nat
  completed_at : Option Nat
  error_message : Option String
deriving DecidableEq

/-- The `users` table, reduced to what the scheduling path reads: a map from
`user_id` to `none` (no such user row) or `some priority_until` where
`priority_until : Option String` is the nullable TEXT column. -/
def UserTable : Type := Nat → Option (Option String)

/-- A placeholder row used only as the default of `Option.getD`. -/
def dummy_row : DownloadRow :=
  { download_id := 0, user_id := 0, video_url := "", video_title := none,
    file_path := none, file_size_bytes := none, format := none,
    status := Status.pending, progress := 0, speed_mbps := none,
    eta_seconds := none, created_at := 0, completed_at := none,
    error_message := none }

/-- Byte-wise (SQLite BINARY collation) strict order on character lists. -/
def chars_lt : List Char → List Char → Bool
  | _, [] => false
  | [], _ :: _ => true
  | a :: as, b :: bs =>
    if a.toNat < b.toNat then true
    else if b.toNat < a.toNat then false
    else chars_lt as bs

/-- SQLite TEXT comparison `a > b` under BINARY collation. -/
def sql_text_gt (a b : String) : Bool := chars_lt b.data a.data

/-- Model of a wall-clock instant (whole seconds; Python's
`datetime.isoformat()` omits the fractional part when the microsecond
component is zero). -/
structure Instant where
  year : Nat
  month : Nat
  day : Nat
  hour : Nat
  minute : Nat
  second : Nat
deriving DecidableEq

/-- Chronological order on instants: lexicographic on the six fields. -/
def nat_list_lt : List Nat → List Nat → Bool
  | _, [] => false
  | [], _ :: _ => true
  | a :: as, b :: bs =>
    if a < b then true else if b < a then false else nat_list_lt as bs

/-- Chronological strict order on instants. -/
def instant_lt (a b : Instant) : Bool :=
  nat_list_lt [a.year, a.month, a.day, a.hour, a.minute, a.second]
    [b.year, b.month, b.day, b.hour, b.minute, b.second]

/-- The decimal digit character of `n % 10`. -/
def digit_char (n : Nat) : Char := Char.ofNat (48 + n % 10)

/-- Zero-padded two-digit rendering (for values below 100). -/
def pad2 (n : Nat) : String := String.mk [digit_char (n / 10), digit_char n]

/-- Zero-padded four-digit rendering (for values below 10000). -/
def pad4 (n : Nat) : String :=
  String.mk [digit_char (n / 1000), digit_char (n / 100), digit_char (n / 10), digit_char n]

/-- The date part `YYYY-MM-DD`, shared by both timestamp renderings. -/
def date_string (t : Instant) : String :=
  pad4 t.year ++ "-" ++ pad2 t.month ++ "-" ++ pad2 t.day

/-- The time part `HH:MM:SS`. -/
def time_string (t : Instant) : String :=
  pad2 t.hour ++ ":" ++ pad2 t.minute ++ ":" ++ pad2 t.second

/-- Python `datetime.isoformat()` of a whole-second instant: the separator
between date and time is the letter T. -/
def iso_string (t : Instant) : String := date_string t ++ "T" ++ time_string t

/-- SQLite `datetime('now')`: same fields but separated by a space. -/
def sql_now_string (t : Instant) : String := date_string t ++ " " ++ time_string t

/-- Database.set_priority (db.py 144-162): the value stored into
`users.priority_until` is the sentinel INFINITE when `days < 0` and otherwise
the `isoformat()` string of now + days.  The date arithmetic producing the
expiry instant is left abstract (`expiry` stands for now + days); what the
store keeps, and all later reads compare, is the rendered string. -/
def priority_until_of_days (days : Int) (expiry : Instant) : String :=
  if days < 0 then "INFINITE" else iso_string expiry

/-- Database.set_priority's UPDATE: rewrites `priority_until` for the one
matching user row (no-op when the user row is absent). -/
def set_priority (users : UserTable) (user_id : Nat) (days : Int) (expiry : Instant) : UserTable :=
  fun k =>
    if k = user_id then (users k).map (fun _ => some (priority_until_of_days days expiry))
    else users k

/-- Largest element of a list of naturals (0 for the empty list). -/
def max_id : List Nat → Nat
  | [] => 0
  | a :: l => max a (max_id l)

/-- The AUTOINCREMENT id handed to the next inserted row. -/
def fresh_id (dls : List DownloadRow) : Nat := max_id (dls.map (·.download_id)) + 1

/-- Database.add_download (db.py 246-258): INSERT of a new `pending` row with
the column defaults of the schema; returns the new table and the new id.
`t` is the CURRENT_TIMESTAMP default of `created_at`. -/
def add_download (dls : List DownloadRow) (user_id : Nat) (video_url : String)
    (video_title format_type : Option String) (t : Nat) : List DownloadRow × Nat :=
  let i := fresh_id dls
  (dls ++ [{ download_id := i, user_id := user_id, video_url := video_url,
             video_title := video_title, file_path := none, file_size_bytes := none,
             format := format_type, status := Status.pending, progress := 0,
             speed_mbps := none, eta_seconds := none, created_at := t,
             completed_at := none, error_message := none }], i)

/-- Database.get_download (db.py 260-285): the row with the given key. -/
def get_download (dls : List DownloadRow) (download_id : Nat) : Option DownloadRow :=
  dls.find? fun r => decide (r.download_id = download_id)

/-- The status of the row with the given key, if any. -/
def status_of (dls : List DownloadRow) (download_id : Nat) : Option Status :=
  (get_download dls download_id).map (·.status)

/-- The stored error_message of the row with the given key, if any. -/
def error_message_of (dls : List DownloadRow) (download_id : Nat) : Option String :=
  (get_download dls download_id).bind (·.error_message)

/-- Apply `g` to exactly the rows whose key matches (the WHERE clause of an
UPDATE keyed by download_id). -/
def upd_row (download_id : Nat) (g : DownloadRow → DownloadRow) (r : DownloadRow) : DownloadRow :=
  if r.download_id = download_id then g r else r

/-- Database.update_download_status (db.py 300-313): a single UPDATE that
writes status, file_path, file_size_bytes, error_message and completed_at on
the matching row.  The Python optional arguments default to None, so a call
that omits them stores NULL; `completed_at` is `now` exactly when the new
status is completed, NULL otherwise. -/
def update_download_status (dls : List DownloadRow) (download_id : Nat) (st : Status)
    (file_path : Option String) (file_size_bytes : Option Nat)
    (error_message : Option String) (now : Nat) : List DownloadRow :=
  dls.map (upd_row download_id (fun r =>
    { r with status := st, file_path := file_path, file_size_bytes := file_size_bytes,
             error_message := error_message,
             completed_at := if st = Status.completed then some now else none }))

/-- Database.update_download_progress (db.py 287-298): UPDATE of progress,
speed_mbps and eta_seconds only. -/
def update_download_progress (dls : List DownloadRow) (download_id : Nat)
    (progress : Nat) (speed_mbps : Option Rat) (eta_seconds : Option Nat) : List DownloadRow :=
  dls.map (upd_row download_id (fun r =>
    { r with progress := progress, speed_mbps := speed_mbps, eta_seconds := eta_seconds }))

/-- Database.count_active_downloads (db.py 373-384): COUNT of rows whose
status is downloading, converting or sending. -/
def count_active_downloads (dls : List DownloadRow) : Nat :=
  dls.countP fun r =>
    decide (r.status = Status.downloading) || decide (r.status = Status.converting)
      || decide (r.status = Status.sending)

/-- Auxiliary count for the corrected concurrency bound: rows whose status is
downloading or converting (the statuses only the admitting worker creates). -/
def count_downloading_converting (dls : List DownloadRow) : Nat :=
  dls.countP fun r =>
    decide (r.status = Status.downloading) || decide (r.status = Status.converting)

/-- The CASE expression of get_all_pending_downloads (db.py 353): tier 0 when
`priority_until` is the INFINITE sentinel or a string comparing greater than
`datetime('now')` under BINARY collation, tier 1 otherwise (including NULL). -/
def pending_tier (priority_until : Option String) (now_sql : String) : Nat :=
  match priority_until with
  | none => 1
  | some s => if decide (s = "INFINITE") || sql_text_gt s now_sql then 0 else 1

/-- The ORDER BY key of get_all_pending_downloads: (tier, created_at). -/
def pend_key (users : UserTable) (now_sql : String) (r : DownloadRow) : Nat × Nat :=
  (pending_tier ((users r.user_id).getD none) now_sql, r.created_at)

/-- Lexicographic non-strict order on the (tier, created_at) sort keys. -/
def key_le (p q : Nat × Nat) : Bool :=
  if p.1 < q.1 then true else if q.1 < p.1 then false else decide (p.2 ≤ q.2)

/-- Ordered insertion, the building block of the sort modelling ORDER BY. -/
def insort_by (le : α → α → Bool) (a : α) : List α → List α
  | [] => [a]
  | b :: l => if le a b then a :: b :: l else b :: insort_by le a l

/-- Stable sort modelling an SQL ORDER BY clause. -/
def sort_by (le : α → α → Bool) (l : List α) : List α := l.foldr (insort_by le) []

/-- Database.get_all_pending_downloads (db.py 342-371): the pending rows
joined against `users`, ordered by the priority CASE tier and then by
created_at.  Rows whose user id has no users row are dropped by the JOIN. -/
def get_all_pending_downloads (dls : List DownloadRow) (users : UserTable)
    (now_sql : String) : List DownloadRow :=
  sort_by (fun a b => key_le (pend_key users now_sql a) (pend_key users now_sql b))
    (dls.filter fun r => decide (r.status = Status.pending) && (users r.user_id).isSome)

/-- DESC sort key on the nullable completed_at column: SQLite orders NULL
below every non-NULL value, so NULL maps to 0 and `some n` to `n + 1`. -/
def ca_key (r : DownloadRow) : Nat :=
  match r.completed_at with
  | some n => n + 1
  | none => 0

/-- Database.get_completed_download_by_url_format (db.py 386-416): the
matching completed row with non-NULL file_path that is newest by
completed_at (ORDER BY completed_at DESC LIMIT 1).  A pure read: it returns
a row value and leaves the table untouched. -/
def get_completed_download_by_url_format (dls : List DownloadRow)
    (video_url format_type : String) : Option DownloadRow :=
  (sort_by (fun a b => decide (ca_key b ≤ ca_key a))
    (dls.filter fun r =>
      decide (r.video_url = video_url) && decide (r.format = some format_type)
        && decide (r.status = Status.completed) && r.file_path.isSome)).head?

/-- Lowercasing used by the error classification (`error_msg.lower()`). -/
def str_to_lower (s : String) : String := String.mk (s.data.map Char.toLower)

/-- Whether the second list is an initial segment of the first. -/
def chars_begin_with : List Char → List Char → Bool
  | _, [] => true
  | [], _ :: _ => false
  | a :: as, b :: bs => decide (a = b) && chars_begin_with as bs

/-- Whether the second list occurs contiguously inside the first. -/
def chars_have_sub : List Char → List Char → Bool
  | [], needle => needle.isEmpty
  | a :: as, needle => chars_begin_with (a :: as) needle || chars_have_sub as needle

/-- Python's substring test `needle in hay`. -/
def str_has_sub (hay needle : String) : Bool := chars_have_sub hay.data needle.data

/-- The error classification of utils.download_video (utils.py 296-309):
substring tests on the lowercased DownloadError text select one of the three
sentinel categories, and anything else is passed through verbatim. -/
def classify_download_error (msg : String) : String :=
  let low := str_to_lower msg
  if str_has_sub low "geo" || str_has_sub low "blocked" then "video_geo_blocked"
  else if str_has_sub low "private" then "video_private"
  else if str_has_sub low "unavailable" then "video_unavailable"
  else msg

/-- Outcome of the yt-dlp engine inside utils.download_video: a downloaded
file was produced and found, or no candidate file was found after a
successful call, or a DownloadError / other exception was raised. -/
inductive YdlOutcome where
  | ok (file_path : String)
  | noFileFound
  | downloadError (msg : String)
  | otherError (msg : String)

/-- utils.download_video (utils.py 214-316) as seen by the worker: the
returned (success, file_path, metadata-error) triple. -/
def download_video_result : YdlOutcome → Bool × Option String × Option String
  | YdlOutcome.ok p => (true, some p, none)
  | YdlOutcome.noFileFound => (false, none, none)
  | YdlOutcome.downloadError m => (false, none, some (classify_download_error m))
  | YdlOutcome.otherError m => (false, none, some m)

/-- What happens to the executor after it has marked the job downloading:
download_video returns (with a stat size for the produced file), or a
subprocess.TimeoutExpired escapes, or some other exception escapes. -/
inductive ExecOutcome where
  | fetched (y : YdlOutcome) (stat_size : Nat)
  | timeoutExc
  | otherExc (msg : String)

/-- The terminal store write of QueueWorker._process_download
(queue_worker.py 106-130): failure messages fall back to "Download failed"
when the metadata carries no error key, a timeout is recorded as
"Download timeout", and success records the stated path and size. -/
def finish_update (dls : List DownloadRow) (download_id : Nat) (out : ExecOutcome)
    (now : Nat) : List DownloadRow :=
  match out with
  | ExecOutcome.fetched y stat_size =>
    match download_video_result y with
    | (true, some p, _) =>
      update_download_status dls download_id Status.completed (some p) (some stat_size) none now
    | (true, none, _) =>
      update_download_status dls download_id Status.completed none (some 0) none now
    | (false, _, e) =>
      update_download_status dls download_id Status.failed none none
        (some (e.getD "Download failed")) now
  | ExecOutcome.timeoutExc =>
    update_download_status dls download_id Status.failed none none (some "Download timeout") now
  | ExecOutcome.otherExc m =>
    update_download_status dls download_id Status.failed none none (some m) now

/-- QueueWorker._process_download (queue_worker.py 72-130) end to end: the
unconditional write of `downloading`, then the run of download_video and the
terminal write. -/
def process_download_run (dls : List DownloadRow) (download_id : Nat)
    (out : ExecOutcome) (now : Nat) : List DownloadRow :=
  finish_update (update_download_status dls download_id Status.downloading none none none now)
    download_id out now

/-- The observable effect of bot._send_completed_download (bot.py 990-1100):
the possibly-updated table, which delivery path ran, whether the local file
was deleted, and whether an uncaught exception escaped. -/
structure DeliveryResult where
  table : List DownloadRow
  link_delivered : Bool
  inline_delivered : Bool
  file_deleted : Bool
  raised : Bool
deriving DecidableEq

/-- bot._send_completed_download (bot.py 990-1100).  Early returns: missing
or empty file_path, a path absent from disk, or a stored size of 0.  It then
writes status `sending`, and only when a progress message is registered it
either surfaces a download link (size strictly above MAX_FILE_SIZE_MB
megabytes; no deletion) or sends the file inline and deletes it afterwards;
a failed inline send is caught and deletes nothing.  A NULL stored size
reaches the size comparison and raises (Python `None > int`). -/
def send_completed_download (dls : List DownloadRow) (j : DownloadRow)
    (disk : String → Bool) (max_file_size_mb : Nat)
    (progress_msg_present send_ok : Bool) (now : Nat) : DeliveryResult :=
  match j.file_path with
  | none => { table := dls, link_delivered := false, inline_delivered := false,
              file_deleted := false, raised := false }
  | some p =>
    if p = "" ∨ disk p = false then
      { table := dls, link_delivered := false, inline_delivered := false,
        file_deleted := false, raised := false }
    else
      match j.file_size_bytes with
      | some sz =>
        if sz = 0 then
          { table := dls, link_delivered := false, inline_delivered := false,
            file_deleted := false, raised := false }
        else
          let d := update_download_status dls j.download_id Status.sending none none none now
          if progress_msg_present = false then
            { table := d, link_delivered := false, inline_delivered := false,
              file_deleted := false, raised := false }
          else if max_file_size_mb * 1024 * 1024 < sz then
            { table := d, link_delivered := true, inline_delivered := false,
              file_deleted := false, raised := false }
          else if send_ok then
            { table := d, link_delivered := false, inline_delivered := true,
              file_deleted := true, raised := false }
          else
            { table := d, link_delivered := false, inline_delivered := false,
              file_deleted := false, raised := false }
      | none =>
        let d := update_download_status dls j.download_id Status.sending none none none now
        { table := d, link_delivered := false, inline_delivered := false,
          file_deleted := false, raised := true }

/-- The observable effect of bot.handle_download_callback's store
interaction: the new table, the cache row that was served (if any), and the
id of the inserted row (if any). -/
structure CallbackResult where
  table : List DownloadRow
  cache_hit : Option DownloadRow
  new_id : Option Nat
deriving DecidableEq

/-- bot.handle_download_callback, cache-and-enqueue part (bot.py 789-815):
look up a completed row for (url, format); when it has a non-empty path that
still exists on disk, serve it from cache and insert nothing, otherwise
insert a fresh pending row. -/
def handle_download_callback (dls : List DownloadRow) (disk : String → Bool)
    (user_id : Nat) (url format_type : String) (t : Nat) : CallbackResult :=
  match get_completed_download_by_url_format dls url format_type with
  | some cached =>
    match cached.file_path with
    | some p =>
      if p ≠ "" ∧ disk p = true then
        { table := dls, cache_hit := some cached, new_id := none }
      else
        let a := add_download dls user_id url none (some format_type) t
        { table := a.1, cache_hit := none, new_id := some a.2 }
    | none =>
      let a := add_download dls user_id url none (some format_type) t
      { table := a.1, cache_hit := none, new_id := some a.2 }
  | none =>
    let a := add_download dls user_id url none (some format_type) t
    { table := a.1, cache_hit := none, new_id := some a.2 }

/-- Ordering following the specification's words for the three-tier claim
(spec: unbounded priority above time-bounded unexpired priority above
no-priority, FIFO inside a tier).  This definition is written from the
SPEC, not from the source, purely to compare against
get_all_pending_downloads. -/
def spec_priority_tier (priority_until : Option String) (now_sql : String) : Nat :=
  match priority_until with
  | none => 2
  | some s =>
    if decide (s = "INFINITE") then 0
    else if sql_text_gt s now_sql then 1 else 2

/-- The pending list as the specification's three-tier sentence describes it
(comparison definition written from the spec, not the source). -/
def spec_list_pending_three_tier (dls : List DownloadRow) (users : UserTable)
    (now_sql : String) : List DownloadRow :=
  sort_by (fun a b =>
      key_le (spec_priority_tier ((users a.user_id).getD none) now_sql, a.created_at)
        (spec_priority_tier ((users b.user_id).getD none) now_sql, b.created_at))
    (dls.filter fun r => decide (r.status = Status.pending) && (users r.user_id).isSome)

/-- One store-visible step of the running system.  `cap` is the configured
MAX_CONCURRENT_DOWNLOADS, `disk` the ambient file system (which paths
exist).  submit: a user enqueues a job (bot.py 799).  tick / tickFailEarly:
one iteration of QueueWorker._run_loop (queue_worker.py 53-70) admits the
head of the pending list when the active count is below the cap — the
admission write, or the failure write when _process_download raises before
it.  progress: a rate-limited progress write while downloading.  finish: the
terminal write of the executor for a job it admitted.  deliver: the progress
observer hands a completed job to _send_completed_download (bot.py 889-890). -/
inductive Step (cap : Nat) (disk : String → Bool) : List DownloadRow → List DownloadRow → Prop where
  | submit (s : List DownloadRow) (user_id : Nat) (url : String)
      (title fmt : Option String) (t : Nat) :
      Step cap disk s (add_download s user_id url title fmt t).1
  | tick (s : List DownloadRow) (users : UserTable) (now_sql : String)
      (j : DownloadRow) (now_t : Nat)
      (hcap : count_active_downloads s < cap)
      (hhead : (get_all_pending_downloads s users now_sql).head? = some j) :
      Step cap disk s (update_download_status s j.download_id Status.downloading none none none now_t)
  | tickFailEarly (s : List DownloadRow) (users : UserTable) (now_sql : String)
      (j : DownloadRow) (msg : String) (now_t : Nat)
      (hcap : count_active_downloads s < cap)
      (hhead : (get_all_pending_downloads s users now_sql).head? = some j) :
      Step cap disk s (update_download_status s j.download_id Status.failed none none (some msg) now_t)
  | progress (s : List DownloadRow) (download_id p : Nat) (sp : Option Rat)
      (eta : Option Nat)
      (h : status_of s download_id = some Status.downloading) :
      Step cap disk s (update_download_progress s download_id p sp eta)
  | finish (s : List DownloadRow) (download_id : Nat) (out : ExecOutcome) (now_t : Nat)
      (h : status_of s download_id = some Status.downloading) :
      Step cap disk s (finish_update s download_id out now_t)
  | deliver (s : List DownloadRow) (download_id : Nat) (j : DownloadRow)
      (maxMB : Nat) (pm send_ok : Bool) (now_t : Nat)
      (hrow : get_download s download_id = some j)
      (hst : j.status = Status.completed) :
      Step cap disk s (send_completed_download s j disk maxMB pm send_ok now_t).table

/-- Finite executions of `Step`. -/
inductive Steps (cap : Nat) (disk : String → Bool) : List DownloadRow → List DownloadRow → Prop where
  | refl (s : List DownloadRow) : Steps cap disk s s
  | tail (s t u : List DownloadRow) :
      Steps cap disk s t → Step cap disk t u → Steps cap disk s u

/-- Key uniqueness of the downloads table (download_id is the PRIMARY KEY). -/
def NodupIds (dls : List DownloadRow) : Prop := (dls.map (·.download_id)).Nodup

/-- A pending row literal used by the concrete ordering inputs. -/
def mk_pending_row (i u t : Nat) (url : String) : DownloadRow :=
  { dummy_row with
    download_id := i, user_id := u, video_url := url,
    created_at := t, format := some "720p" }

/-- Users for the three-tier counterexample: user 1 has unbounded priority,
user 2 has time-bounded priority that has not expired. -/
def c3_users : UserTable := fun k =>
  if k = 1 then some (some "INFINITE")
  else if k = 2 then some (some "2026-10-17T01:00:00") else none

/-- SQLite datetime('now') at the moment of the ordering counterexamples. -/
def c3_now_sql : String := "2026-10-12 01:00:00"

/-- Two pending jobs: the bounded-priority user submitted first. -/
def c3_dls : List DownloadRow := [mk_pending_row 1 2 1 "u1", mk_pending_row 2 1 2 "u2"]

/-- Users for the 3-job scenario: priority none / unbounded / 5 days left. -/
def c3_scn_users : UserTable := fun k =>
  if k = 1 then some none
  else if k = 2 then some (some "INFINITE")
  else if k = 3 then some (some "2026-10-17T01:00:00") else none

/-- The scenario's three submissions, in submission order. -/
def c3_scn_dls : List DownloadRow :=
  [mk_pending_row 1 1 1 "a", mk_pending_row 2 2 2 "b", mk_pending_row 3 3 3 "c"]

/-- A past instant: one hour before `c5_now`, on the same UTC date. -/
def c5_past : Instant := { year := 2026, month := 10, day := 12, hour := 0, minute := 0, second := 0 }

/-- The current instant for the priority-expiry claim. -/
def c5_now : Instant := { year := 2026, month := 10, day := 12, hour := 1, minute := 0, second := 0 }

/-- Two users, neither with priority. -/
def c5_base_users : UserTable := fun k =>
  if k = 1 then some none else if k = 2 then some none else none

/-- The same users after set_priority stored an expiry that already lies in
the past (days = 5, but the computed expiry instant is `c5_past`). -/
def c5_users_past : UserTable := set_priority c5_base_users 2 5 c5_past

/-- Two pending jobs; the (expired-)priority user submitted second. -/
def c5_dls : List DownloadRow := [mk_pending_row 1 1 1 "a", mk_pending_row 2 2 2 "b"]

/-- A table whose only job is already completed (for the admission
conditionality counterexample). -/
def c1_table : List DownloadRow :=
  [{ dummy_row with
     download_id := 1, status := Status.completed, file_path := some "x",
     file_size_bytes := some 7, completed_at := some 3 }]

/-- The file system of the concrete execution trace: every path exists. -/
def trace_disk : String → Bool := fun _ => true

/-- Users of the concrete trace: all known, none with priority. -/
def trace_users : UserTable := fun _ => some none

/-- Trace: first submission. -/
def trace_s1 : List DownloadRow := (add_download [] 1 "a" none (some "f") 1).1

/-- Trace: second submission. -/
def trace_s2 : List DownloadRow := (add_download trace_s1 2 "b" none (some "f") 2).1

/-- Job 1 as it sits in the store while pending. -/
def trace_row1 : DownloadRow := (get_download trace_s2 1).getD dummy_row

/-- Trace: the first tick admits job 1. -/
def trace_s3 : List DownloadRow := update_download_status trace_s2 1 Status.downloading none none none 10

/-- Trace: job 1 finishes successfully (file "p", 5 bytes). -/
def trace_s4 : List DownloadRow :=
  finish_update trace_s3 1 (ExecOutcome.fetched (YdlOutcome.ok "p") 5) 11

/-- Job 2 as it sits in the store while pending. -/
def trace_row2 : DownloadRow := (get_download trace_s4 2).getD dummy_row

/-- Trace: the second tick admits job 2 while job 1 is completed. -/
def trace_s5 : List DownloadRow := update_download_status trace_s4 2 Status.downloading none none none 12

/-- Job 1 as it sits in the store once completed. -/
def trace_job1 : DownloadRow := (get_download trace_s4 1).getD dummy_row

/-- Trace: delivery of completed job 1 (cap-free write of `sending`) while
job 2 is downloading. -/
def trace_s6 : List DownloadRow :=
  (send_completed_download trace_s5 trace_job1 trace_disk 1 true true 13).table

/-- Delivery applied directly after job 1 completed (for the status-order
counterexample). -/
def trace_c4_after : List DownloadRow :=
  (send_completed_download trace_s4 trace_job1 trace_disk 1 true true 13).table

/-- Trace: one more submission after job 1 is stuck in sending. -/
def trace_s7 : List DownloadRow := (add_download trace_s6 3 "c" none (some "f") 20).1


/-- The status pairs (before, after) that a single system step may produce
for a fixed job id: unchanged, a fresh pending row, the admission write, the
executor's terminal writes, failure before admission, and the delivery
write that moves a completed job to sending. -/
def status_pair_ok (a b : Option Status) : Prop :=
  a = b
  ∨ (a = none ∧ b = some Status.pending)
  ∨ (a = some Status.pending ∧ b = some Status.downloading)
  ∨ (a = some Status.pending ∧ b = some Status.failed)
  ∨ (a = some Status.downloading ∧ b = some Status.completed)
  ∨ (a = some Status.downloading ∧ b = some Status.failed)
  ∨ (a = some Status.completed ∧ b = some Status.sending)

/-- An older completed job for (L, 720p), its artifact at path Q. -/
def c6_row_old : DownloadRow :=
  { dummy_row with
    download_id := 1, user_id := 1, video_url := "L", format := some "720p",
    status := Status.completed, file_path := some "Q", file_size_bytes := some 10,
    completed_at := some 5 }

/-- A newer completed job for (L, 720p), its artifact at path P. -/
def c6_row_new : DownloadRow :=
  { dummy_row with
    download_id := 2, user_id := 1, video_url := "L", format := some "720p",
    status := Status.completed, file_path := some "P", file_size_bytes := some 11,
    completed_at := some 9 }

/-- A store with two completed jobs for the same (locator, quality). -/
def c6_dls : List DownloadRow := [c6_row_old, c6_row_new]

/-- A file system on which every path exists. -/
def c6_disk : String → Bool := fun _ => true

/-- A store with one admitted-to-be job for the executor-failure witness. -/
def c7_dls : List DownloadRow := [mk_pending_row 1 1 1 "a"]

/-- A completed row whose artifact is one byte above a 1 MB threshold. -/
def c8_row : DownloadRow :=
  { dummy_row with
    download_id := 1, status := Status.completed, file_path := some "P",
    file_size_bytes := some 1048577, completed_at := some 4 }

/-- A row with every clearable field populated, for the frame witness. -/
def c9_row : DownloadRow :=
  { dummy_row with
    download_id := 1, status := Status.downloading, file_path := some "old",
    file_size_bytes := some 3, error_message := some "boom", progress := 50 }

/-- A one-row pending table for the admission witness. -/
def c1w_table : List DownloadRow := [mk_pending_row 1 1 1 "w"]

lemma insort_by_perm (le : α → α → Bool) (a : α) (l : List α) :
    (insort_by le a l).Perm (a :: l) := by
  induction l with
  | nil => exact List.Perm.refl _
  | cons b t ih =>
    unfold insort_by
    by_cases h : le a b = true
    · rw [if_pos h]
    · rw [if_neg h]
      exact (ih.cons b).trans (List.Perm.swap a b t)

lemma sort_by_perm (le : α → α → Bool) (l : List α) : (sort_by le l).Perm l := by
  induction l with
  | nil => exact List.Perm.refl _
  | cons a t ih =>
    show (insort_by le a (sort_by le t)).Perm (a :: t)
    exact (insort_by_perm le a _).trans (ih.cons a)

lemma mem_insort_by {le : α → α → Bool} {x a : α} {l : List α} :
    x ∈ insort_by le a l ↔ x = a ∨ x ∈ l := by
  rw [(insort_by_perm le a l).mem_iff, List.mem_cons]

lemma pairwise_insort_by (le : α → α → Bool)
    (htot : ∀ x y, le x y = true ∨ le y x = true)
    (htr : ∀ x y z, le x y = true → le y z = true → le x z = true)
    (a : α) (l : List α) (hl : l.Pairwise (fun x y => le x y = true)) :
    (insort_by le a l).Pairwise (fun x y => le x y = true) := by
  induction l with
  | nil => simp [insort_by]
  | cons b t ih =>
    rcases List.pairwise_cons.mp hl with ⟨hb, ht⟩
    unfold insort_by
    by_cases hab : le a b = true
    · rw [if_pos hab]
      refine List.pairwise_cons.mpr ⟨?_, hl⟩
      intro x hx
      rcases List.mem_cons.mp hx with rfl | hx
      · exact hab
      · exact htr a b x hab (hb x hx)
    · rw [if_neg hab]
      refine List.pairwise_cons.mpr ⟨?_, ih ht⟩
      intro x hx
      rcases mem_insort_by.mp hx with rfl | hx
      · rcases htot x b with h | h
        · exact absurd h hab
        · exact h
      · exact hb x hx

lemma sort_by_pairwise (le : α → α → Bool)
    (htot : ∀ x y, le x y = true ∨ le y x = true)
    (htr : ∀ x y z, le x y = true → le y z = true → le x z = true)
    (l : List α) : (sort_by le l).Pairwise (fun x y => le x y = true) := by
  induction l with
  | nil => simp [sort_by]
  | cons a t ih => exact pairwise_insort_by le htot htr a _ ih

lemma head?_mem {l : List α} {a : α} (h : l.head? = some a) : a ∈ l := by
  cases l with
  | nil => cases h
  | cons b t =>
    have hb : b = a := by simpa using h
    subst hb
    exact List.mem_cons_self _ _

lemma head_rel_of_pairwise {R : α → α → Prop} {l : List α} {a : α}
    (hp : l.Pairwise R) (hh : l.head? = some a) : ∀ x ∈ l, x = a ∨ R a x := by
  cases l with
  | nil => cases hh
  | cons b t =>
    cases hh
    intro x hx
    rcases List.mem_cons.mp hx with rfl | hx
    · exact Or.inl rfl
    · exact Or.inr ((List.pairwise_cons.mp hp).1 x hx)

lemma key_le_total (p q : Nat × Nat) : key_le p q = true ∨ key_le q p = true := by
  unfold key_le
  rcases Nat.lt_trichotomy p.1 q.1 with h | h | h
  · left
    rw [if_pos h]
  · rcases Nat.le_total p.2 q.2 with h2 | h2
    · left
      rw [if_neg (by omega), if_neg (by omega)]
      simpa using h2
    · right
      rw [if_neg (by omega), if_neg (by omega)]
      simpa using h2
  · right
    rw [if_pos h]

lemma key_le_trans (p q r : Nat × Nat) (h1 : key_le p q = true) (h2 : key_le q r = true) :
    key_le p r = true := by
  unfold key_le at h1 h2 ⊢
  split_ifs at h1 h2 ⊢ <;> simp_all <;> omega

lemma countP_map_comp (p : β → Bool) (f : α → β) (l : List α) :
    (l.map f).countP p = l.countP (fun a => p (f a)) := by
  induction l with
  | nil => rfl
  | cons a t ih => simp [List.countP_cons, ih]

lemma countP_le_add (p q t : α → Bool) (l : List α)
    (h : ∀ a ∈ l, p a = true → q a = true ∨ t a = true) :
    l.countP p ≤ l.countP q + l.countP t := by
  induction l with
  | nil => simp
  | cons a l ih =>
    have ih2 := ih (fun x hx => h x (List.mem_cons_of_mem a hx))
    by_cases hp : p a = true
    · rw [List.countP_cons_of_pos _ _ hp]
      rcases h a (List.mem_cons_self a l) hp with hq | ht
      · rw [List.countP_cons_of_pos _ _ hq, List.countP_cons]
        omega
      · rw [List.countP_cons_of_pos _ _ ht, List.countP_cons]
        omega
    · rw [List.countP_cons_of_neg _ _ hp, List.countP_cons, List.countP_cons]
      omega

lemma countP_le_countP (p q : α → Bool) (l : List α)
    (h : ∀ a ∈ l, p a = true → q a = true) :
    l.countP p ≤ l.countP q := by
  induction l with
  | nil => simp
  | cons a l ih =>
    have ih2 := ih (fun x hx => h x (List.mem_cons_of_mem a hx))
    by_cases hp : p a = true
    · rw [List.countP_cons_of_pos _ _ hp, List.countP_cons_of_pos _ _ (h a (List.mem_cons_self a l) hp)]
      omega
    · rw [List.countP_cons_of_neg _ _ hp, List.countP_cons]
      omega

lemma one_le_countP {p : α → Bool} {l : List α} {a : α} (ha : a ∈ l) (hp : p a = true) :
    1 ≤ l.countP p := by
  induction l with
  | nil => cases ha
  | cons b t ih =>
    simp only [List.countP_cons]
    rcases List.mem_cons.mp ha with rfl | hm
    · simp [hp]
    · have := ih hm
      omega

lemma nodup_countP_key_le_one {l : List DownloadRow} (h : NodupIds l) (id : Nat) :
    l.countP (fun r => decide (r.download_id = id)) ≤ 1 := by
  induction l with
  | nil => simp
  | cons a t ih =>
    have h' := List.nodup_cons.mp h
    simp only [List.countP_cons]
    by_cases hid : a.download_id = id
    · have hz : t.countP (fun r => decide (r.download_id = id)) = 0 := by
        apply List.countP_eq_zero.mpr
        intro r hr
        simp only [decide_eq_true_eq]
        intro he
        apply h'.1
        have hm := List.mem_map_of_mem (fun x : DownloadRow => x.download_id) hr
        show a.download_id ∈ List.map (fun x : DownloadRow => x.download_id) t
        rw [hid, ← he]
        exact hm
      simp [hid, hz]
    · have := ih h'.2
      simp only [decide_eq_true_eq, hid, if_false]
      omega

lemma get_download_map_upd (l : List DownloadRow) (id k : Nat) (g : DownloadRow → DownloadRow)
    (hg : ∀ r, (g r).download_id = r.download_id) :
    get_download (l.map (upd_row id g)) k = (get_download l k).map (upd_row id g) := by
  induction l with
  | nil => rfl
  | cons a t ih =>
    have hid : (upd_row id g a).download_id = a.download_id := by
      unfold upd_row
      split <;> simp [hg]
    unfold get_download at ih ⊢
    by_cases hk : a.download_id = k
    · rw [List.map_cons, List.find?_cons_of_pos, List.find?_cons_of_pos]
      · rfl
      · simpa using hk
      · simpa [hid] using hk
    · rw [List.map_cons, List.find?_cons_of_neg, List.find?_cons_of_neg]
      · exact ih
      · simpa using hk
      · simpa [hid] using hk

lemma get_download_key {dls : List DownloadRow} {id : Nat} {r : DownloadRow}
    (h : get_download dls id = some r) : r.download_id = id := by
  have := List.find?_some h
  simpa using this

lemma mem_of_get_download {dls : List DownloadRow} {id : Nat} {r : DownloadRow}
    (h : get_download dls id = some r) : r ∈ dls :=
  List.mem_of_find?_eq_some h

lemma get_download_update_status (dls : List DownloadRow) (id k : Nat)
    (st : Status) (fp : Option String) (sz : Option Nat) (err : Option String) (now : Nat) :
    get_download (update_download_status dls id st fp sz err now) k =
      (get_download dls k).map
        (upd_row id (fun r =>
          { r with
            status := st, file_path := fp, file_size_bytes := sz,
            error_message := err,
            completed_at := if st = Status.completed then some now else none })) := by
  unfold update_download_status
  exact get_download_map_upd dls id k _ (fun r => rfl)

lemma get_download_update_status_eq {dls : List DownloadRow} {id : Nat} {r : DownloadRow}
    (st : Status) (fp : Option String) (sz : Option Nat) (err : Option String) (now : Nat)
    (h : get_download dls id = some r) :
    get_download (update_download_status dls id st fp sz err now) id =
      some { r with
             status := st, file_path := fp, file_size_bytes := sz,
             error_message := err,
             completed_at := if st = Status.completed then some now else none } := by
  rw [get_download_update_status, h]
  simp [upd_row, get_download_key h]

lemma get_download_update_status_ne {dls : List DownloadRow} {id k : Nat}
    (st : Status) (fp : Option String) (sz : Option Nat) (err : Option String) (now : Nat)
    (hk : k ≠ id) :
    get_download (update_download_status dls id st fp sz err now) k = get_download dls k := by
  rw [get_download_update_status]
  cases hres : get_download dls k with
  | none => rfl
  | some r =>
    have : r.download_id = k := get_download_key hres
    simp [upd_row, this, hk]

lemma get_download_update_status_none {dls : List DownloadRow} {id : Nat}
    (st : Status) (fp : Option String) (sz : Option Nat) (err : Option String) (now : Nat)
    (h : get_download dls id = none) :
    get_download (update_download_status dls id st fp sz err now) id = none := by
  rw [get_download_update_status, h]
  rfl

lemma get_download_update_progress (dls : List DownloadRow) (id k p : Nat)
    (sp : Option Rat) (eta : Option Nat) :
    get_download (update_download_progress dls id p sp eta) k =
      (get_download dls k).map
        (upd_row id (fun r =>
          { r with progress := p, speed_mbps := sp, eta_seconds := eta })) := by
  unfold update_download_progress
  exact get_download_map_upd dls id k _ (fun r => rfl)

lemma status_of_update_progress (dls : List DownloadRow) (id k p : Nat)
    (sp : Option Rat) (eta : Option Nat) :
    status_of (update_download_progress dls id p sp eta) k = status_of dls k := by
  unfold status_of
  rw [get_download_update_progress]
  cases hres : get_download dls k with
  | none => rfl
  | some r =>
    by_cases hid : r.download_id = id <;> simp [upd_row, hid]

lemma get_download_append_sing (dls : List DownloadRow) (r : DownloadRow) (k : Nat) :
    get_download (dls ++ [r]) k =
      match get_download dls k with
      | some x => some x
      | none => if r.download_id = k then some r else none := by
  induction dls with
  | nil =>
    show get_download [r] k = _
    unfold get_download
    by_cases hk : r.download_id = k
    · rw [List.find?_cons_of_pos _ (by simpa using hk)]
      simp [hk]
    · rw [List.find?_cons_of_neg _ (by simpa using hk)]
      simp [hk]
  | cons a t ih =>
    unfold get_download at ih ⊢
    by_cases hk : a.download_id = k
    · rw [List.cons_append, List.find?_cons_of_pos _ (by simpa using hk),
          List.find?_cons_of_pos _ (by simpa using hk)]
    · rw [List.cons_append, List.find?_cons_of_neg _ (by simpa using hk),
          List.find?_cons_of_neg _ (by simpa using hk)]
      exact ih

lemma mem_le_max_id {x : Nat} {l : List Nat} (h : x ∈ l) : x ≤ max_id l := by
  induction l with
  | nil => cases h
  | cons a t ih =>
    rcases List.mem_cons.mp h with rfl | hm
    · exact Nat.le_max_left _ _
    · exact le_trans (ih hm) (Nat.le_max_right _ _)

lemma fresh_id_not_mem (dls : List DownloadRow) :
    fresh_id dls ∉ dls.map (·.download_id) := by
  intro h
  have := mem_le_max_id h
  unfold fresh_id at this
  omega

lemma ids_map_upd (l : List DownloadRow) (id : Nat) (g : DownloadRow → DownloadRow)
    (hg : ∀ r, (g r).download_id = r.download_id) :
    (l.map (upd_row id g)).map (·.download_id) = l.map (·.download_id) := by
  induction l with
  | nil => rfl
  | cons a t ih =>
    simp only [List.map_cons, ih]
    congr 1
    unfold upd_row
    split <;> simp [hg]

lemma ids_update_status (dls : List DownloadRow) (id : Nat) (st : Status)
    (fp : Option String) (sz : Option Nat) (err : Option String) (now : Nat) :
    (update_download_status dls id st fp sz err now).map (·.download_id) =
      dls.map (·.download_id) := by
  unfold update_download_status
  exact ids_map_upd dls id _ (fun r => rfl)

lemma ids_update_progress (dls : List DownloadRow) (id p : Nat)
    (sp : Option Rat) (eta : Option Nat) :
    (update_download_progress dls id p sp eta).map (·.download_id) =
      dls.map (·.download_id) := by
  unfold update_download_progress
  exact ids_map_upd dls id _ (fun r => rfl)

lemma nodup_update_status (dls : List DownloadRow) (id : Nat) (st : Status)
    (fp : Option String) (sz : Option Nat) (err : Option String) (now : Nat)
    (h : NodupIds dls) : NodupIds (update_download_status dls id st fp sz err now) := by
  unfold NodupIds
  rw [ids_update_status]
  exact h

lemma nodup_update_progress (dls : List DownloadRow) (id p : Nat)
    (sp : Option Rat) (eta : Option Nat)
    (h : NodupIds dls) : NodupIds (update_download_progress dls id p sp eta) := by
  unfold NodupIds
  rw [ids_update_progress]
  exact h

lemma nodup_add_download (dls : List DownloadRow) (uid : Nat) (url : String)
    (title fmt : Option String) (t : Nat) (h : NodupIds dls) :
    NodupIds (add_download dls uid url title fmt t).1 := by
  unfold NodupIds add_download
  rw [List.map_append]
  refine List.Nodup.append h (List.nodup_singleton _) ?_
  intro x hx hx1
  have : x = fresh_id dls := by simpa using hx1
  subst this
  exact fresh_id_not_mem dls hx

lemma get_download_of_mem {dls : List DownloadRow} (h : NodupIds dls) {r : DownloadRow}
    (hr : r ∈ dls) : get_download dls r.download_id = some r := by
  induction dls with
  | nil => cases hr
  | cons a t ih =>
    have h' := List.nodup_cons.mp h
    rcases List.mem_cons.mp hr with rfl | hm
    · unfold get_download
      rw [List.find?_cons_of_pos _ (by simp)]
    · have hna : ¬(a.download_id = r.download_id) := by
        intro he
        apply h'.1
        have hmm := List.mem_map_of_mem (fun x : DownloadRow => x.download_id) hm
        show a.download_id ∈ List.map (fun x : DownloadRow => x.download_id) t
        rw [he]
        exact hmm
      unfold get_download at ih ⊢
      rw [List.find?_cons_of_neg _ (by simpa using hna)]
      exact ih h'.2 hm

lemma head_pending {s : List DownloadRow} {users : UserTable} {now_sql : String}
    {j : DownloadRow}
    (hhead : (get_all_pending_downloads s users now_sql).head? = some j) :
    j ∈ s ∧ j.status = Status.pending := by
  have hmem : j ∈ get_all_pending_downloads s users now_sql := head?_mem hhead
  unfold get_all_pending_downloads at hmem
  have hf : j ∈ s.filter fun r => decide (r.status = Status.pending) && (users r.user_id).isSome :=
    (sort_by_perm _ _).mem_iff.mp hmem
  rcases List.mem_filter.mp hf with ⟨hs, hp⟩
  refine ⟨hs, ?_⟩
  have := (Bool.and_eq_true _ _).mp hp
  exact of_decide_eq_true this.1

lemma finish_update_eq (dls : List DownloadRow) (id : Nat) (out : ExecOutcome) (now : Nat) :
    (∃ fp sz, finish_update dls id out now =
        update_download_status dls id Status.completed fp sz none now)
    ∨ (∃ msg, finish_update dls id out now =
        update_download_status dls id Status.failed none none (some msg) now) := by
  cases out with
  | fetched y sz =>
    cases y with
    | ok p => exact Or.inl ⟨some p, some sz, rfl⟩
    | noFileFound => exact Or.inr ⟨"Download failed", rfl⟩
    | downloadError m => exact Or.inr ⟨classify_download_error m, rfl⟩
    | otherError m => exact Or.inr ⟨m, rfl⟩
  | timeoutExc => exact Or.inr ⟨"Download timeout", rfl⟩
  | otherExc m => exact Or.inr ⟨m, rfl⟩

lemma send_completed_table_cases (dls : List DownloadRow) (j : DownloadRow)
    (disk : String → Bool) (maxMB : Nat) (pm ok : Bool) (now : Nat) :
    (send_completed_download dls j disk maxMB pm ok now).table = dls
    ∨ (send_completed_download dls j disk maxMB pm ok now).table =
        update_download_status dls j.download_id Status.sending none none none now := by
  cases hfp : j.file_path with
  | none =>
    left
    simp [send_completed_download, hfp]
  | some p =>
    by_cases h1 : p = "" ∨ disk p = false
    · left
      simp [send_completed_download, hfp, h1]
    · cases hsz : j.file_size_bytes with
      | none =>
        right
        simp [send_completed_download, hfp, hsz, h1]
      | some sz =>
        by_cases h2 : sz = 0
        · left
          simp [send_completed_download, hfp, hsz, h1, h2]
        · by_cases h3 : pm = false
          · right
            simp [send_completed_download, hfp, hsz, h1, h2, h3]
          · by_cases h4 : maxMB * 1024 * 1024 < sz
            · right
              simp [send_completed_download, hfp, hsz, h1, h2, h3, h4]
            · cases ok with
              | true =>
                right
                simp [send_completed_download, hfp, hsz, h1, h2, h3, h4]
              | false =>
                right
                simp [send_completed_download, hfp, hsz, h1, h2, h3, h4]

lemma countP_ext (p q : α → Bool) (l : List α) (h : ∀ a ∈ l, p a = q a) :
    l.countP p = l.countP q := by
  induction l with
  | nil => rfl
  | cons a t ih =>
    rw [List.countP_cons, List.countP_cons, h a (List.mem_cons_self a t),
        ih (fun x hx => h x (List.mem_cons_of_mem a hx))]

lemma countP_map_upd_le (l : List DownloadRow) (id : Nat) (g : DownloadRow → DownloadRow)
    (p : DownloadRow → Bool) (h : NodupIds l) :
    (l.map (upd_row id g)).countP p ≤ l.countP p + 1 := by
  rw [countP_map_comp]
  have hle := countP_le_add (fun r => p (upd_row id g r)) p
    (fun r => decide (r.download_id = id)) l (by
      intro r _ hp
      by_cases hid : r.download_id = id
      · exact Or.inr (by simpa using hid)
      · exact Or.inl (by simpa [upd_row, hid] using hp))
  have hone := nodup_countP_key_le_one h id
  omega

lemma countP_map_upd_mono (l : List DownloadRow) (id : Nat) (g : DownloadRow → DownloadRow)
    (p : DownloadRow → Bool) (hg : ∀ r, p (g r) = true → p r = true) :
    (l.map (upd_row id g)).countP p ≤ l.countP p := by
  rw [countP_map_comp]
  apply countP_le_countP
  intro r _ hp
  by_cases hid : r.download_id = id
  · exact hg r (by simpa [upd_row, hid] using hp)
  · simpa [upd_row, hid] using hp

lemma cdc_update_status_le (dls : List DownloadRow) (id : Nat) (st : Status)
    (fp : Option String) (sz : Option Nat) (err : Option String) (now : Nat)
    (h : NodupIds dls) :
    count_downloading_converting (update_download_status dls id st fp sz err now) ≤
      count_downloading_converting dls + 1 := by
  unfold count_downloading_converting update_download_status
  exact countP_map_upd_le dls id _ _ h

lemma cdc_update_status_of_nonactive (dls : List DownloadRow) (id : Nat) (st : Status)
    (fp : Option String) (sz : Option Nat) (err : Option String) (now : Nat)
    (h1 : st ≠ Status.downloading) (h2 : st ≠ Status.converting) :
    count_downloading_converting (update_download_status dls id st fp sz err now) ≤
      count_downloading_converting dls := by
  unfold count_downloading_converting update_download_status
  apply countP_map_upd_mono
  intro r hp
  exfalso
  simp only [Bool.or_eq_true, decide_eq_true_eq] at hp
  exact hp.elim h1 h2

lemma cdc_update_progress (dls : List DownloadRow) (id p : Nat)
    (sp : Option Rat) (eta : Option Nat) :
    count_downloading_converting (update_download_progress dls id p sp eta) =
      count_downloading_converting dls := by
  unfold count_downloading_converting update_download_progress
  rw [countP_map_comp]
  apply countP_ext
  intro r _
  by_cases hid : r.download_id = id <;> simp [upd_row, hid]

lemma cdc_add_download (dls : List DownloadRow) (uid : Nat) (url : String)
    (title fmt : Option String) (t : Nat) :
    count_downloading_converting (add_download dls uid url title fmt t).1 =
      count_downloading_converting dls := by
  simp only [add_download, count_downloading_converting]
  rw [List.countP_append]
  rfl

lemma cdc_le_cad (dls : List DownloadRow) :
    count_downloading_converting dls ≤ count_active_downloads dls := by
  unfold count_downloading_converting count_active_downloads
  apply countP_le_countP
  intro r _ hp
  rw [Bool.or_eq_true]
  exact Or.inl hp

lemma step_nodup {cap : Nat} {disk : String → Bool} {s t : List DownloadRow}
    (hstep : Step cap disk s t) (h : NodupIds s) : NodupIds t := by
  cases hstep with
  | submit uid url title fmt t0 => exact nodup_add_download s uid url title fmt t0 h
  | tick users nsql j nt hcap hhead => exact nodup_update_status _ _ _ _ _ _ _ h
  | tickFailEarly users nsql j msg nt hcap hhead => exact nodup_update_status _ _ _ _ _ _ _ h
  | progress id p sp eta h0 => exact nodup_update_progress _ _ _ _ _ h
  | finish id out nt h0 =>
    rcases finish_update_eq s id out nt with ⟨fp, sz, he⟩ | ⟨msg, he⟩
    · rw [he]
      exact nodup_update_status _ _ _ _ _ _ _ h
    · rw [he]
      exact nodup_update_status _ _ _ _ _ _ _ h
  | deliver id j maxMB pm ok nt hrow hst =>
    rcases send_completed_table_cases s j disk maxMB pm ok nt with he | he
    · rw [he]
      exact h
    · rw [he]
      exact nodup_update_status _ _ _ _ _ _ _ h

lemma step_cdc {cap : Nat} {disk : String → Bool} {s t : List DownloadRow}
    (hstep : Step cap disk s t) (h : NodupIds s)
    (hinv : count_downloading_converting s ≤ cap) :
    count_downloading_converting t ≤ cap := by
  cases hstep with
  | submit uid url title fmt t0 =>
    rw [cdc_add_download]
    exact hinv
  | tick users nsql j nt hcap hhead =>
    have h1 := cdc_update_status_le s j.download_id Status.downloading none none none nt h
    have h2 := cdc_le_cad s
    omega
  | tickFailEarly users nsql j msg nt hcap hhead =>
    exact le_trans
      (cdc_update_status_of_nonactive s j.download_id Status.failed none none (some msg) nt
        (by decide) (by decide)) hinv
  | progress id p sp eta h0 =>
    rw [cdc_update_progress]
    exact hinv
  | finish id out nt h0 =>
    rcases finish_update_eq s id out nt with ⟨fp, sz, he⟩ | ⟨msg, he⟩
    · rw [he]
      exact le_trans
        (cdc_update_status_of_nonactive s id Status.completed fp sz none nt
          (by decide) (by decide)) hinv
    · rw [he]
      exact le_trans
        (cdc_update_status_of_nonactive s id Status.failed none none (some msg) nt
          (by decide) (by decide)) hinv
  | deliver id j maxMB pm ok nt hrow hst =>
    rcases send_completed_table_cases s j disk maxMB pm ok nt with he | he
    · rw [he]
      exact hinv
    · rw [he]
      exact le_trans
        (cdc_update_status_of_nonactive s j.download_id Status.sending none none none nt
          (by decide) (by decide)) hinv

lemma steps_inv_from {cap : Nat} {disk : String → Bool} {s t : List DownloadRow}
    (hs : Steps cap disk s t)
    (h : NodupIds s ∧ count_downloading_converting s ≤ cap) :
    NodupIds t ∧ count_downloading_converting t ≤ cap := by
  induction hs with
  | refl => exact h
  | tail t1 u1 hst hstep ih =>
    exact ⟨step_nodup hstep ih.1, step_cdc hstep ih.1 ih.2⟩

lemma steps_inv {cap : Nat} {disk : String → Bool} {s : List DownloadRow}
    (hs : Steps cap disk [] s) :
    NodupIds s ∧ count_downloading_converting s ≤ cap :=
  steps_inv_from hs ⟨List.nodup_nil, Nat.zero_le cap⟩

lemma steps_trans {cap : Nat} {disk : String → Bool} {a b c : List DownloadRow}
    (h1 : Steps cap disk a b) (h2 : Steps cap disk b c) : Steps cap disk a c := by
  induction h2 with
  | refl => exact h1
  | tail t1 u1 hst hstep ih => exact Steps.tail _ _ _ ih hstep

lemma get_download_add_of_some {dls : List DownloadRow} {uid : Nat} {url : String}
    {title fmt : Option String} {t k : Nat} {r : DownloadRow}
    (h : get_download dls k = some r) :
    get_download (add_download dls uid url title fmt t).1 k = some r := by
  simp only [add_download]
  rw [get_download_append_sing, h]

lemma status_of_update_status_self (dls : List DownloadRow) (id : Nat) (st : Status)
    (fp : Option String) (sz : Option Nat) (err : Option String) (now : Nat) :
    status_of (update_download_status dls id st fp sz err now) id = none
      ∨ status_of (update_download_status dls id st fp sz err now) id = some st := by
  cases hres : get_download dls id with
  | none =>
    left
    unfold status_of
    rw [get_download_update_status_none _ _ _ _ _ hres]
    rfl
  | some r =>
    right
    unfold status_of
    rw [get_download_update_status_eq _ _ _ _ _ hres]
    rfl

lemma step_preserves_sending {cap : Nat} {disk : String → Bool} {s t : List DownloadRow}
    (hnd : NodupIds s) (hstep : Step cap disk s t) {id : Nat}
    (h : status_of s id = some Status.sending) : status_of t id = some Status.sending := by
  cases hstep with
  | submit uid url title fmt t0 =>
    unfold status_of at h ⊢
    cases hres : get_download s id with
    | none =>
      rw [hres] at h
      cases h
    | some r =>
      rw [get_download_add_of_some hres]
      rw [hres] at h
      exact h
  | tick users nsql j nt hcap hhead =>
    rcases head_pending hhead with ⟨hjs, hjp⟩
    by_cases hid : id = j.download_id
    · exfalso
      subst hid
      unfold status_of at h
      rw [get_download_of_mem hnd hjs] at h
      simp [hjp] at h
    · unfold status_of at h ⊢
      rw [get_download_update_status_ne _ _ _ _ _ hid]
      exact h
  | tickFailEarly users nsql j msg nt hcap hhead =>
    rcases head_pending hhead with ⟨hjs, hjp⟩
    by_cases hid : id = j.download_id
    · exfalso
      subst hid
      unfold status_of at h
      rw [get_download_of_mem hnd hjs] at h
      simp [hjp] at h
    · unfold status_of at h ⊢
      rw [get_download_update_status_ne _ _ _ _ _ hid]
      exact h
  | progress id0 p sp eta h0 =>
    rw [status_of_update_progress]
    exact h
  | finish id0 out nt h0 =>
    by_cases hid : id = id0
    · exfalso
      subst hid
      rw [h] at h0
      simp at h0
    · rcases finish_update_eq s id0 out nt with ⟨fp, sz, he⟩ | ⟨msg, he⟩
      · rw [he]
        unfold status_of at h ⊢
        rw [get_download_update_status_ne _ _ _ _ _ hid]
        exact h
      · rw [he]
        unfold status_of at h ⊢
        rw [get_download_update_status_ne _ _ _ _ _ hid]
        exact h
  | deliver id0 j maxMB pm ok nt hrow hst =>
    have hkey : j.download_id = id0 := get_download_key hrow
    rcases send_completed_table_cases s j disk maxMB pm ok nt with he | he
    · rw [he]
      exact h
    · rw [he]
      by_cases hid : id = j.download_id
      · exfalso
        subst hid
        unfold status_of at h
        rw [hkey, hrow] at h
        simp [hst] at h
      · unfold status_of at h ⊢
        rw [get_download_update_status_ne _ _ _ _ _ hid]
        exact h

lemma step_no_pending_reentry {cap : Nat} {disk : String → Bool} {s t : List DownloadRow}
    (hstep : Step cap disk s t) (id : Nat)
    (h : status_of t id = some Status.pending) :
    status_of s id = some Status.pending ∨ status_of s id = none := by
  cases hstep with
  | submit uid url title fmt t0 =>
    cases hres : get_download s id with
    | some r =>
      left
      unfold status_of at h ⊢
      rw [get_download_add_of_some hres] at h
      rw [hres]
      exact h
    | none =>
      right
      unfold status_of
      rw [hres]
      rfl
  | tick users nsql j nt hcap hhead =>
    by_cases hid : id = j.download_id
    · exfalso
      subst hid
      rcases status_of_update_status_self s j.download_id Status.downloading none none none nt
        with hse | hse
      · rw [hse] at h
        cases h
      · rw [hse] at h
        simp at h
    · left
      unfold status_of at h ⊢
      rw [get_download_update_status_ne _ _ _ _ _ hid] at h
      exact h
  | tickFailEarly users nsql j msg nt hcap hhead =>
    by_cases hid : id = j.download_id
    · exfalso
      subst hid
      rcases status_of_update_status_self s j.download_id Status.failed none none (some msg) nt
        with hse | hse
      · rw [hse] at h
        cases h
      · rw [hse] at h
        simp at h
    · left
      unfold status_of at h ⊢
      rw [get_download_update_status_ne _ _ _ _ _ hid] at h
      exact h
  | progress id0 p sp eta h0 =>
    left
    rw [status_of_update_progress] at h
    exact h
  | finish id0 out nt h0 =>
    rcases finish_update_eq s id0 out nt with ⟨fp, sz, he⟩ | ⟨msg, he⟩
    · rw [he] at h
      by_cases hid : id = id0
      · exfalso
        subst hid
        rcases status_of_update_status_self s id Status.completed fp sz none nt with hse | hse
        · rw [hse] at h
          cases h
        · rw [hse] at h
          simp at h
      · left
        unfold status_of at h ⊢
        rw [get_download_update_status_ne _ _ _ _ _ hid] at h
        exact h
    · rw [he] at h
      by_cases hid : id = id0
      · exfalso
        subst hid
        rcases status_of_update_status_self s id Status.failed none none (some msg) nt
          with hse | hse
        · rw [hse] at h
          cases h
        · rw [hse] at h
          simp at h
      · left
        unfold status_of at h ⊢
        rw [get_download_update_status_ne _ _ _ _ _ hid] at h
        exact h
  | deliver id0 j maxMB pm ok nt hrow hst =>
    rcases send_completed_table_cases s j disk maxMB pm ok nt with he | he
    · rw [he] at h
      exact Or.inl h
    · rw [he] at h
      by_cases hid : id = j.download_id
      · exfalso
        subst hid
        rcases status_of_update_status_self s j.download_id Status.sending none none none nt
          with hse | hse
        · rw [hse] at h
          cases h
        · rw [hse] at h
          simp at h
      · left
        unfold status_of at h ⊢
        rw [get_download_update_status_ne _ _ _ _ _ hid] at h
        exact h

lemma classify_mem (m : String) :
    classify_download_error m = "video_geo_blocked"
      ∨ classify_download_error m = "video_private"
      ∨ classify_download_error m = "video_unavailable"
      ∨ classify_download_error m = m := by
  unfold classify_download_error
  simp only []
  split_ifs <;> simp

lemma trace_chain2 : Steps 1 trace_disk [] trace_s2 :=
  Steps.tail _ _ _
    (Steps.tail _ _ _ (Steps.refl _) (Step.submit [] 1 "a" none (some "f") 1))
    (Step.submit trace_s1 2 "b" none (some "f") 2)

lemma trace_chain3 : Steps 1 trace_disk [] trace_s3 :=
  Steps.tail _ _ _ trace_chain2
    (Step.tick trace_s2 trace_users "" trace_row1 10 (by decide) (by decide))

lemma trace_chain4 : Steps 1 trace_disk [] trace_s4 :=
  Steps.tail _ _ _ trace_chain3
    (Step.finish trace_s3 1 (ExecOutcome.fetched (YdlOutcome.ok "p") 5) 11 (by decide))

lemma trace_chain5 : Steps 1 trace_disk [] trace_s5 :=
  Steps.tail _ _ _ trace_chain4
    (Step.tick trace_s4 trace_users "" trace_row2 12 (by decide) (by decide))

lemma trace_step_deliver : Step 1 trace_disk trace_s5 trace_s6 :=
  Step.deliver trace_s5 1 trace_job1 1 true true 13 (by decide) (by decide)

lemma trace_step_deliver4 : Step 1 trace_disk trace_s4 trace_c4_after :=
  Step.deliver trace_s4 1 trace_job1 1 true true 13 (by decide) (by decide)

lemma trace_chain6 : Steps 1 trace_disk [] trace_s6 :=
  Steps.tail _ _ _ trace_chain5 trace_step_deliver

lemma get_completed_spec {dls : List DownloadRow} {url fmt : String} {j : DownloadRow}
    (h : get_completed_download_by_url_format dls url fmt = some j) :
    j ∈ dls ∧ j.video_url = url ∧ j.format = some fmt ∧ j.status = Status.completed
      ∧ j.file_path.isSome = true
      ∧ ∀ r ∈ dls, r.video_url = url → r.format = some fmt → r.status = Status.completed →
          r.file_path.isSome = true → ca_key r ≤ ca_key j := by
  unfold get_completed_download_by_url_format at h
  have hmemj := head?_mem h
  have hjf := (sort_by_perm (fun a b => decide (ca_key b ≤ ca_key a))
    (dls.filter fun r => decide (r.video_url = url) && decide (r.format = some fmt)
      && decide (r.status = Status.completed) && r.file_path.isSome)).mem_iff.mp hmemj
  rcases List.mem_filter.mp hjf with ⟨hjd, hjp⟩
  simp only [Bool.and_eq_true, decide_eq_true_eq] at hjp
  obtain ⟨⟨⟨h1, h2⟩, h3⟩, h4⟩ := hjp
  refine ⟨hjd, h1, h2, h3, h4, ?_⟩
  intro r hr hr1 hr2 hr3 hr4
  have hrf : r ∈ dls.filter fun r => decide (r.video_url = url) && decide (r.format = some fmt)
      && decide (r.status = Status.completed) && r.file_path.isSome :=
    List.mem_filter.mpr ⟨hr, by simp [hr1, hr2, hr3, hr4]⟩
  have hrs := (sort_by_perm (fun a b => decide (ca_key b ≤ ca_key a))
    (dls.filter fun r => decide (r.video_url = url) && decide (r.format = some fmt)
      && decide (r.status = Status.completed) && r.file_path.isSome)).mem_iff.mpr hrf
  have hp := sort_by_pairwise (fun (a b : DownloadRow) => decide (ca_key b ≤ ca_key a))
    (fun x y => by
      rcases Nat.le_total (ca_key y) (ca_key x) with hh | hh
      · exact Or.inl (by simpa using hh)
      · exact Or.inr (by simpa using hh))
    (fun x y z hxy hyz => by
      simp only [decide_eq_true_eq] at hxy hyz ⊢
      omega)
    (dls.filter fun r => decide (r.video_url = url) && decide (r.format = some fmt)
      && decide (r.status = Status.completed) && r.file_path.isSome)
  rcases head_rel_of_pairwise hp h r hrs with rfl | hrel
  · exact le_refl _
  · simpa using hrel

lemma run_failed_eval (dls : List DownloadRow) (id : Nat) (r : DownloadRow) (now : Nat)
    (msg : String) (h : get_download dls id = some r) :
    status_of (update_download_status
        (update_download_status dls id Status.downloading none none none now)
        id Status.failed none none (some msg) now) id = some Status.failed
    ∧ error_message_of (update_download_status
        (update_download_status dls id Status.downloading none none none now)
        id Status.failed none none (some msg) now) id = some msg := by
  have hd1 := get_download_update_status_eq Status.downloading none none none now h
  constructor
  · unfold status_of
    rw [get_download_update_status_eq _ _ _ _ _ hd1]
    rfl
  · unfold error_message_of
    rw [get_download_update_status_eq _ _ _ _ _ hd1]
    rfl

lemma run_completed_eval (dls : List DownloadRow) (id : Nat) (r : DownloadRow) (now : Nat)
    (fp : Option String) (sz : Option Nat) (h : get_download dls id = some r) :
    status_of (update_download_status
        (update_download_status dls id Status.downloading none none none now)
        id Status.completed fp sz none now) id = some Status.completed := by
  have hd1 := get_download_update_status_eq Status.downloading none none none now h
  unfold status_of
  rw [get_download_update_status_eq _ _ _ _ _ hd1]
  rfl

/-- C1 (counterexample): the admission write is not a conditional update.
Applied to a job whose status is already `completed`, the very same
`update_download_status(id, downloading)` call used for admission succeeds
and overwrites the status, so it does not "succeed only if the job's current
status is still pending". -/
theorem C1_admission_conditional_counterexample :
    status_of c1_table 1 = some Status.completed
    ∧ status_of (update_download_status c1_table 1 Status.downloading none none none 9) 1 =
        some Status.downloading := by
  decide

/-- C1 (amended): the admission write `update_download_status(id,
"downloading")` is unconditional, but running the admit step twice in
sequence on a pending job still performs exactly one pending-to-downloading
transition: the first write sees `pending`, the second write finds the job
already `downloading` (it rewrites downloading to downloading). -/
theorem C1_admission_amended (dls : List DownloadRow) (id now1 now2 : Nat) (r : DownloadRow)
    (h : get_download dls id = some r) (hp : r.status = Status.pending) :
    status_of dls id = some Status.pending
    ∧ status_of (update_download_status dls id Status.downloading none none none now1) id =
        some Status.downloading
    ∧ status_of (update_download_status
        (update_download_status dls id Status.downloading none none none now1)
        id Status.downloading none none none now2) id = some Status.downloading
    ∧ ([(status_of dls id,
          status_of (update_download_status dls id Status.downloading none none none now1) id),
        (status_of (update_download_status dls id Status.downloading none none none now1) id,
          status_of (update_download_status
            (update_download_status dls id Status.downloading none none none now1)
            id Status.downloading none none none now2) id)].countP
        (fun pr => decide (pr.1 = some Status.pending)
          && decide (pr.2 = some Status.downloading))) = 1 := by
  have h1 : status_of dls id = some Status.pending := by
    unfold status_of
    rw [h]
    simp [hp]
  have h2 : status_of (update_download_status dls id Status.downloading none none none now1) id =
      some Status.downloading := by
    unfold status_of
    rw [get_download_update_status_eq _ _ _ _ _ h]
    rfl
  have h3 : status_of (update_download_status
      (update_download_status dls id Status.downloading none none none now1)
      id Status.downloading none none none now2) id = some Status.downloading := by
    unfold status_of
    rw [get_download_update_status_eq _ _ _ _ _
      (get_download_update_status_eq Status.downloading none none none now1 h)]
    rfl
  refine ⟨h1, h2, h3, ?_⟩
  rw [h1, h2, h3]
  rfl

/-- C1 (witness): the amended admission property evaluated on a one-row
pending table. -/
theorem C1_admission_amended_witness :
    status_of c1w_table 1 = some Status.pending
    ∧ status_of (update_download_status c1w_table 1 Status.downloading none none none 5) 1 =
        some Status.downloading
    ∧ status_of (update_download_status
        (update_download_status c1w_table 1 Status.downloading none none none 5)
        1 Status.downloading none none none 6) 1 = some Status.downloading
    ∧ ([(status_of c1w_table 1,
          status_of (update_download_status c1w_table 1 Status.downloading none none none 5) 1),
        (status_of (update_download_status c1w_table 1 Status.downloading none none none 5) 1,
          status_of (update_download_status
            (update_download_status c1w_table 1 Status.downloading none none none 5)
            1 Status.downloading none none none 6) 1)].countP
        (fun pr => decide (pr.1 = some Status.pending)
          && decide (pr.2 = some Status.downloading))) = 1 :=
  C1_admission_amended c1w_table 1 5 6 (mk_pending_row 1 1 1 "w") (by decide) (by decide)

/-- C2 (counterexample): count_active_downloads can exceed the configured
cap.  With MAX_CONCURRENT_DOWNLOADS = 1, a reachable execution (submit,
submit, admit job 1, finish job 1, admit job 2, deliver job 1) leaves job 2
downloading and job 1 sending, so the active count is 2 > 1: the delivery
step writes `sending` — counted by count_active_downloads — without any cap
check. -/
theorem C2_cap_counterexample :
    Steps 1 trace_disk [] trace_s6 ∧ 1 < count_active_downloads trace_s6 :=
  ⟨trace_chain6, by decide⟩

/-- C2 (amended): in every reachable state the number of jobs whose status
is downloading or converting — the statuses only the cap-guarded worker
creates — never exceeds MAX_CONCURRENT_DOWNLOADS; count_active_downloads
additionally counts sending jobs and can exceed the cap. -/
theorem C2_cap_amended (cap : Nat) (disk : String → Bool) (s : List DownloadRow)
    (h : Steps cap disk [] s) : count_downloading_converting s ≤ cap :=
  (steps_inv h).2

/-- C2 (witness): the amended bound evaluated on a concrete reachable state
with one downloading job under cap 1. -/
theorem C2_cap_amended_witness :
    Steps 1 trace_disk [] trace_s5 ∧ count_downloading_converting trace_s5 ≤ 1 :=
  ⟨trace_chain5, C2_cap_amended 1 trace_disk trace_s5 trace_chain5⟩

/-- C3 (counterexample): get_all_pending_downloads does not use three tiers.
User 1 has unbounded priority (INFINITE), user 2 has time-bounded unexpired
priority, and user 2's job was created first: the code returns the bounded
user's job first (both fall in the same SQL CASE tier), while the
specification's three-tier ordering would put the unbounded user's job
first. -/
theorem C3_ordering_counterexample :
    (get_all_pending_downloads c3_dls c3_users c3_now_sql).map (·.download_id) = [1, 2]
    ∧ (spec_list_pending_three_tier c3_dls c3_users c3_now_sql).map (·.download_id) = [2, 1]
    ∧ pending_tier ((c3_users 1).getD none) c3_now_sql = 0
    ∧ pending_tier ((c3_users 2).getD none) c3_now_sql = 0 := by
  decide

/-- C3 (amended): get_all_pending_downloads orders the pending jobs of known
users in TWO tiers — active priority (the INFINITE sentinel or a
priority_until string comparing above datetime('now')) before no priority —
breaking ties by earlier created_at; the output is exactly a reordering of
the pending rows.  The spec's 3-job scenario {none, unbounded,
5-days-remaining} submitted in that order still admits in the order
[unbounded, 5-days, none], because the unbounded job was also submitted
before the 5-day job. -/
theorem C3_ordering_amended :
    (∀ (dls : List DownloadRow) (users : UserTable) (now_sql : String),
      (get_all_pending_downloads dls users now_sql).Pairwise
        (fun a b => key_le (pend_key users now_sql a) (pend_key users now_sql b) = true))
    ∧ (∀ (dls : List DownloadRow) (users : UserTable) (now_sql : String),
      (get_all_pending_downloads dls users now_sql).Perm
        (dls.filter fun r => decide (r.status = Status.pending) && (users r.user_id).isSome))
    ∧ (get_all_pending_downloads c3_scn_dls c3_scn_users c3_now_sql).map (·.download_id)
        = [2, 3, 1] := by
  refine ⟨?_, ?_, by decide⟩
  · intro dls users nsql
    exact sort_by_pairwise _
      (fun x y => key_le_total (pend_key users nsql x) (pend_key users nsql y))
      (fun x y z hxy hyz => key_le_trans _ _ _ hxy hyz) _
  · intro dls users nsql
    exact sort_by_perm _ _

/-- C4 (counterexample): a status write moves backwards along the claimed
sequence: from the reachable state where job 1 is `completed`, the delivery
step (`_send_completed_download`) writes `sending`, so a job with status
completed later has status sending. -/
theorem C4_monotonic_counterexample :
    Steps 1 trace_disk [] trace_s4
    ∧ Step 1 trace_disk trace_s4 trace_c4_after
    ∧ status_of trace_s4 1 = some Status.completed
    ∧ status_of trace_c4_after 1 = some Status.sending :=
  ⟨trace_chain4, trace_step_deliver4, by decide, by decide⟩

/-- C4 (amended): across any single step from a reachable state, a job's
status pair (before, after) is either unchanged, a fresh pending row,
pending→downloading, pending→failed, downloading→completed,
downloading→failed, or the delivery write completed→sending; `converting`
is never written, and completed→sending is the one move against the
claimed order. -/
theorem C4_transitions_amended (cap : Nat) (disk : String → Bool)
    (s s' : List DownloadRow) (id : Nat)
    (hreach : Steps cap disk [] s) (hstep : Step cap disk s s') :
    status_pair_ok (status_of s id) (status_of s' id) := by
  have hnd : NodupIds s := (steps_inv hreach).1
  cases hstep with
  | submit uid url title fmt t0 =>
    cases hres : get_download s id with
    | some r =>
      left
      unfold status_of
      rw [hres, get_download_add_of_some hres]
    | none =>
      unfold status_of
      rw [hres]
      simp only [add_download]
      rw [get_download_append_sing, hres]
      by_cases hk : fresh_id s = id
      · right
        left
        exact ⟨rfl, by simp [hk]⟩
      · left
        simp [hk]
  | tick users nsql j nt hcap hhead =>
    rcases head_pending hhead with ⟨hjs, hjp⟩
    by_cases hid : id = j.download_id
    · subst hid
      right; right; left
      constructor
      · unfold status_of
        rw [get_download_of_mem hnd hjs]
        simp [hjp]
      · unfold status_of
        rw [get_download_update_status_eq _ _ _ _ _ (get_download_of_mem hnd hjs)]
        rfl
    · left
      unfold status_of
      rw [get_download_update_status_ne _ _ _ _ _ hid]
  | tickFailEarly users nsql j msg nt hcap hhead =>
    rcases head_pending hhead with ⟨hjs, hjp⟩
    by_cases hid : id = j.download_id
    · subst hid
      right; right; right; left
      constructor
      · unfold status_of
        rw [get_download_of_mem hnd hjs]
        simp [hjp]
      · unfold status_of
        rw [get_download_update_status_eq _ _ _ _ _ (get_download_of_mem hnd hjs)]
        rfl
    · left
      unfold status_of
      rw [get_download_update_status_ne _ _ _ _ _ hid]
  | progress id0 p sp eta h0 =>
    left
    rw [status_of_update_progress]
  | finish id0 out nt h0 =>
    by_cases hid : id = id0
    · subst hid
      cases hres : get_download s id with
      | none =>
        exfalso
        unfold status_of at h0
        rw [hres] at h0
        cases h0
      | some r =>
        rcases finish_update_eq s id out nt with ⟨fp, sz, he⟩ | ⟨msg, he⟩
        · rw [he]
          right; right; right; right; left
          refine ⟨h0, ?_⟩
          unfold status_of
          rw [get_download_update_status_eq _ _ _ _ _ hres]
          rfl
        · rw [he]
          right; right; right; right; right; left
          refine ⟨h0, ?_⟩
          unfold status_of
          rw [get_download_update_status_eq _ _ _ _ _ hres]
          rfl
    · rcases finish_update_eq s id0 out nt with ⟨fp, sz, he⟩ | ⟨msg, he⟩
      · rw [he]
        left
        unfold status_of
        rw [get_download_update_status_ne _ _ _ _ _ hid]
      · rw [he]
        left
        unfold status_of
        rw [get_download_update_status_ne _ _ _ _ _ hid]
  | deliver id0 j maxMB pm ok nt hrow hst =>
    have hkey := get_download_key hrow
    rcases send_completed_table_cases s j disk maxMB pm ok nt with he | he
    · rw [he]
      left
      rfl
    · rw [he]
      by_cases hid : id = j.download_id
      · subst hid
        right; right; right; right; right; right
        constructor
        · unfold status_of
          rw [hkey, hrow]
          simp [hst]
        · unfold status_of
          rw [get_download_update_status_eq _ _ _ _ _ (by rw [hkey]; exact hrow)]
          rfl
      · left
        unfold status_of
        rw [get_download_update_status_ne _ _ _ _ _ hid]

/-- C4 (witness): the amended transition relation evaluated on the concrete
delivery step, which takes job 1 from completed to sending. -/
theorem C4_transitions_amended_witness :
    status_pair_ok (status_of trace_s5 1) (status_of trace_s6 1) :=
  C4_transitions_amended 1 trace_disk trace_s5 trace_s6 1 trace_chain5 trace_step_deliver

/-- C5 (code bug): a past instant is NOT treated like NULL at admission
time.  set_priority stores `isoformat()` strings whose date/time separator
is the letter T, while get_all_pending_downloads compares them as raw text
against SQLite's datetime('now'), whose separator is a space.  Since T
compares above the space, a priority_until lying in the past (here one hour
ago, same UTC date) still compares greater than now, lands in the priority
tier, and reorders the queue relative to the NULL-priority table — whereas
the Python-side expiry check (has_priority, db.py 122-142) parses the
string and correctly treats it as expired. -/
theorem C5_priority_expiry_bug :
    instant_lt c5_past c5_now = true
    ∧ c5_users_past 2 = some (some (iso_string c5_past))
    ∧ pending_tier (some (iso_string c5_past)) (sql_now_string c5_now) = 0
    ∧ pending_tier none (sql_now_string c5_now) = 1
    ∧ (get_all_pending_downloads c5_dls c5_users_past (sql_now_string c5_now)).map
        (·.download_id) = [2, 1]
    ∧ (get_all_pending_downloads c5_dls c5_base_users (sql_now_string c5_now)).map
        (·.download_id) = [1, 2] := by
  decide

/-- C6: a repeat submission for a (locator, quality) whose cached lookup
yields a completed job with a non-empty artifact path that still exists on
disk is served from the cache: the handler's resulting table is the
unchanged input table (no row inserted, none mutated or deleted), and the
row served is a completed job for that (locator, quality) that is newest by
completed_at among all matching completed rows with a stored path. -/
theorem C6_cache_hit (dls : List DownloadRow) (disk : String → Bool) (uid t : Nat)
    (url fmt P : String) (j : DownloadRow)
    (h : get_completed_download_by_url_format dls url fmt = some j)
    (hp : j.file_path = some P) (hP : P ≠ "") (hd : disk P = true) :
    handle_download_callback dls disk uid url fmt t =
      { table := dls, cache_hit := some j, new_id := none }
    ∧ j.status = Status.completed ∧ j.video_url = url ∧ j.format = some fmt
    ∧ ∀ r ∈ dls, r.video_url = url → r.format = some fmt → r.status = Status.completed →
        r.file_path.isSome = true → ca_key r ≤ ca_key j := by
  obtain ⟨hmem, h1, h2, h3, h4, hmax⟩ := get_completed_spec h
  refine ⟨?_, h3, h1, h2, hmax⟩
  unfold handle_download_callback
  simp only [h, hp]
  rw [if_pos ⟨hP, hd⟩]

/-- C6 (witness): two completed jobs for (L, 720p); the lookup returns the
one completed later and the handler leaves the table unchanged. -/
theorem C6_cache_hit_witness :
    get_completed_download_by_url_format c6_dls "L" "720p" = some c6_row_new
    ∧ handle_download_callback c6_dls c6_disk 7 "L" "720p" 99 =
        { table := c6_dls, cache_hit := some c6_row_new, new_id := none } :=
  ⟨by decide,
    (C6_cache_hit c6_dls c6_disk 7 99 "L" "720p" "P" c6_row_new (by decide) (by decide)
      (by decide) (by decide)).1⟩

/-- C7: for an admitted job, the executor run always terminates the job in
completed or failed (never pending, downloading or converting); a timeout
yields status failed with error "Download timeout"; a fetch DownloadError
yields status failed with the classified error, which is one of
video_geo_blocked / video_private / video_unavailable or the raw text; any
other escaped exception yields status failed with the exception text; a
failed download_video result yields status failed; and no system step ever
moves an existing job back to pending. -/
theorem C7_executor_failure (dls : List DownloadRow) (id : Nat) (r : DownloadRow)
    (out : ExecOutcome) (now : Nat) (h : get_download dls id = some r) :
    (status_of (process_download_run dls id out now) id = some Status.completed
      ∨ status_of (process_download_run dls id out now) id = some Status.failed)
    ∧ (out = ExecOutcome.timeoutExc →
        status_of (process_download_run dls id out now) id = some Status.failed
        ∧ error_message_of (process_download_run dls id out now) id = some "Download timeout")
    ∧ (∀ m sz, out = ExecOutcome.fetched (YdlOutcome.downloadError m) sz →
        status_of (process_download_run dls id out now) id = some Status.failed
        ∧ error_message_of (process_download_run dls id out now) id =
            some (classify_download_error m)
        ∧ (classify_download_error m = "video_geo_blocked"
            ∨ classify_download_error m = "video_private"
            ∨ classify_download_error m = "video_unavailable"
            ∨ classify_download_error m = m))
    ∧ (∀ m, out = ExecOutcome.otherExc m →
        status_of (process_download_run dls id out now) id = some Status.failed
        ∧ error_message_of (process_download_run dls id out now) id = some m)
    ∧ (∀ y sz, out = ExecOutcome.fetched y sz → (download_video_result y).1 = false →
        status_of (process_download_run dls id out now) id = some Status.failed)
    ∧ (∀ (cap : Nat) (disk : String → Bool) (s s' : List DownloadRow),
        Step cap disk s s' → status_of s' id = some Status.pending →
          status_of s id = some Status.pending ∨ status_of s id = none) := by
  refine ⟨?_, ?_, ?_, ?_, ?_, ?_⟩
  · cases out with
    | fetched y sz =>
      cases y with
      | ok p => exact Or.inl (run_completed_eval dls id r now (some p) (some sz) h)
      | noFileFound => exact Or.inr (run_failed_eval dls id r now "Download failed" h).1
      | downloadError m =>
        exact Or.inr (run_failed_eval dls id r now (classify_download_error m) h).1
      | otherError m => exact Or.inr (run_failed_eval dls id r now m h).1
    | timeoutExc => exact Or.inr (run_failed_eval dls id r now "Download timeout" h).1
    | otherExc m => exact Or.inr (run_failed_eval dls id r now m h).1
  · intro hout
    subst hout
    exact run_failed_eval dls id r now "Download timeout" h
  · intro m sz hout
    subst hout
    exact ⟨(run_failed_eval dls id r now (classify_download_error m) h).1,
      (run_failed_eval dls id r now (classify_download_error m) h).2, classify_mem m⟩
  · intro m hout
    subst hout
    exact run_failed_eval dls id r now m h
  · intro y sz hout hfail
    subst hout
    cases y with
    | ok p => cases hfail
    | noFileFound => exact (run_failed_eval dls id r now "Download failed" h).1
    | downloadError m => exact (run_failed_eval dls id r now (classify_download_error m) h).1
    | otherError m => exact (run_failed_eval dls id r now m h).1
  · intro cap disk s s' hstep hpend
    exact step_no_pending_reentry hstep id hpend

/-- C7 (witness): the executor run on a one-row table with a timeout
outcome ends failed with the timeout error text. -/
theorem C7_executor_failure_witness :
    status_of (process_download_run c7_dls 1 ExecOutcome.timeoutExc 9) 1 = some Status.failed
    ∧ error_message_of (process_download_run c7_dls 1 ExecOutcome.timeoutExc 9) 1 =
        some "Download timeout" :=
  (C7_executor_failure c7_dls 1 (mk_pending_row 1 1 1 "a") ExecOutcome.timeoutExc 9
    (by decide)).2.1 rfl

/-- C8: delivery of a completed job with an existing non-empty artifact of
positive stored size is chosen by the size threshold: strictly above
MAX_FILE_SIZE_MB megabytes the delivery is link-based and the delivery step
does not delete the local file; at or below the threshold the artifact is
sent inline and the file is deleted exactly when the inline send succeeds. -/
theorem C8_delivery_threshold (dls : List DownloadRow) (j : DownloadRow)
    (disk : String → Bool) (maxMB sz : Nat) (send_ok : Bool) (now : Nat) (P : String)
    (hp : j.file_path = some P) (hP : P ≠ "") (hd : disk P = true)
    (hsz : j.file_size_bytes = some sz) (hpos : 0 < sz) :
    (maxMB * 1024 * 1024 < sz →
      (send_completed_download dls j disk maxMB true send_ok now).link_delivered = true
      ∧ (send_completed_download dls j disk maxMB true send_ok now).file_deleted = false)
    ∧ (sz ≤ maxMB * 1024 * 1024 →
      (send_completed_download dls j disk maxMB true send_ok now).inline_delivered = send_ok
      ∧ (send_completed_download dls j disk maxMB true send_ok now).file_deleted = send_ok) := by
  have hcond : ¬(P = "" ∨ disk P = false) := by
    intro hor
    rcases hor with hor | hor
    · exact hP hor
    · rw [hd] at hor
      cases hor
  have hszne : ¬sz = 0 := by omega
  have hpm : ¬(true = false) := by simp
  constructor
  · intro hlt
    constructor
    · simp only [send_completed_download, hp, hsz]
      rw [if_neg hcond, if_neg hszne, if_neg hpm, if_pos hlt]
    · simp only [send_completed_download, hp, hsz]
      rw [if_neg hcond, if_neg hszne, if_neg hpm, if_pos hlt]
  · intro hle
    have hnlt : ¬(maxMB * 1024 * 1024 < sz) := by omega
    cases send_ok with
    | true =>
      constructor
      · simp only [send_completed_download, hp, hsz]
        rw [if_neg hcond, if_neg hszne, if_neg hpm, if_neg hnlt]
        simp
      · simp only [send_completed_download, hp, hsz]
        rw [if_neg hcond, if_neg hszne, if_neg hpm, if_neg hnlt]
        simp
    | false =>
      have hok : ¬(false = true) := by simp
      constructor
      · simp only [send_completed_download, hp, hsz]
        rw [if_neg hcond, if_neg hszne, if_neg hpm, if_neg hnlt, if_neg hok]
      · simp only [send_completed_download, hp, hsz]
        rw [if_neg hcond, if_neg hszne, if_neg hpm, if_neg hnlt, if_neg hok]

/-- C8 (witness): with a 1 MB threshold and an artifact of 1048577 bytes
(threshold + 1), delivery is link-based and the file is not deleted. -/
theorem C8_delivery_threshold_witness :
    (send_completed_download [c8_row] c8_row (fun _ => true) 1 true true 7).link_delivered = true
    ∧ (send_completed_download [c8_row] c8_row (fun _ => true) 1 true true 7).file_deleted =
        false :=
  (C8_delivery_threshold [c8_row] c8_row (fun _ => true) 1 1048577 true 7 "P"
    (by decide) (by decide) (by decide) (by decide) (by decide)).1 (by decide)

/-- C9: update_download_status called with the optional arguments omitted
(Python defaults: None) overwrites file_path, file_size_bytes and
error_message with NULL even when previously set, writes completed_at as
NULL unless the new status is completed (in which case it becomes now),
keeps progress and all other rows unchanged, and sets the status. -/
theorem C9_update_status_clears_fields (dls : List DownloadRow) (id now : Nat)
    (st : Status) (r : DownloadRow) (h : get_download dls id = some r) :
    ((get_download (update_download_status dls id st none none none now) id).map
        (·.file_path) = some none)
    ∧ ((get_download (update_download_status dls id st none none none now) id).map
        (·.file_size_bytes) = some none)
    ∧ ((get_download (update_download_status dls id st none none none now) id).map
        (·.error_message) = some none)
    ∧ (st ≠ Status.completed →
        (get_download (update_download_status dls id st none none none now) id).map
          (·.completed_at) = some none)
    ∧ (st = Status.completed →
        (get_download (update_download_status dls id st none none none now) id).map
          (·.completed_at) = some (some now))
    ∧ ((get_download (update_download_status dls id st none none none now) id).map
        (·.progress) = some r.progress)
    ∧ ((get_download (update_download_status dls id st none none none now) id).map
        (·.status) = some st)
    ∧ (∀ k, k ≠ id → get_download (update_download_status dls id st none none none now) k =
        get_download dls k) := by
  have he := get_download_update_status_eq st none none none now h
  refine ⟨?_, ?_, ?_, ?_, ?_, ?_, ?_,
    fun k hk => get_download_update_status_ne st none none none now hk⟩
  · rw [he]
    rfl
  · rw [he]
    rfl
  · rw [he]
    rfl
  · intro hne
    rw [he]
    simp [hne]
  · intro hco
    rw [he]
    simp [hco]
  · rw [he]
    rfl
  · rw [he]
    rfl

/-- C9 (witness): on a row with file_path, size and error_message all set,
an update to `sending` with the optionals omitted clears them. -/
theorem C9_update_status_clears_fields_witness :
    ((get_download (update_download_status [c9_row] 1 Status.sending none none none 8) 1).map
        (·.file_path) = some none)
    ∧ ((get_download (update_download_status [c9_row] 1 Status.sending none none none 8) 1).map
        (·.error_message) = some none) := by
  have h := C9_update_status_clears_fields [c9_row] 1 8 Status.sending c9_row (by decide)
  exact ⟨h.1, h.2.2.1⟩

/-- C10: once a job's status is sending, no later step of the system ever
changes it — the admission, executor and delivery writes are all guarded
away from sending jobs — so the job's status is sending in every
subsequently reachable state and count_active_downloads, which counts
sending, stays at least 1. -/
theorem C10_sending_absorbing (cap : Nat) (disk : String → Bool)
    (s s' : List DownloadRow) (id : Nat)
    (h0 : Steps cap disk [] s) (h1 : Steps cap disk s s')
    (hsend : status_of s id = some Status.sending) :
    status_of s' id = some Status.sending ∧ 1 ≤ count_active_downloads s' := by
  have habs : status_of s' id = some Status.sending := by
    induction h1 with
    | refl => exact hsend
    | tail t1 u1 hst hstep ih =>
      have hnd : NodupIds t1 := (steps_inv (steps_trans h0 hst)).1
      exact step_preserves_sending hnd hstep ih
  refine ⟨habs, ?_⟩
  unfold status_of at habs
  cases hres : get_download s' id with
  | none =>
    rw [hres] at habs
    cases habs
  | some r =>
    rw [hres] at habs
    have hr : r.status = Status.sending := by simpa using habs
    have hmem := mem_of_get_download hres
    unfold count_active_downloads
    exact one_le_countP hmem (by simp [hr])

/-- C10 (witness): job 1 is sending in the concrete reachable state; after
one more submission it is still sending and still counted active. -/
theorem C10_sending_absorbing_witness :
    status_of trace_s7 1 = some Status.sending ∧ 1 ≤ count_active_downloads trace_s7 :=
  C10_sending_absorbing 1 trace_disk trace_s6 trace_s7 1 trace_chain6
    (Steps.tail _ _ _ (Steps.refl _) (Step.submit trace_s6 3 "c" none (some "f") 20))
    (by decide)
